import Mathlib

/-!
# Verification of the load-balancer analysis harness

Shallow embedding of the load-generation engine (`src/sender/run.py`) and the
artificial backend (`src/app/server.py`), with proofs of the specified
properties.  Time values and quantiles are modelled as rationals; the Python
float operations are modelled by their exact mathematical counterparts.
-/

namespace LoadBalancer

/-! ## Python builtin `round` (banker's rounding: round half to even)

`int(round(x))` in `pct` uses Python's builtin `round`, which rounds to the
nearest integer, resolving exact halves toward the even neighbour. -/

/-- Python's builtin `round` on a (nonnegative or negative) rational:
nearest integer, ties to even. -/
def pyRound (x : ℚ) : ℤ :=
  if x - (⌊x⌋ : ℚ) < 1/2 then ⌊x⌋
  else if 1/2 < x - (⌊x⌋ : ℚ) then ⌊x⌋ + 1
  else if ⌊x⌋ % 2 = 0 then ⌊x⌋ else ⌊x⌋ + 1

/-! ## Percentile helper `pct` (src/sender/run.py lines 57-62)

```python
def pct(arr, q: float):
    if not arr:
        return 0.0
    i = max(0, min(len(arr)-1, int(round(q*(len(arr)-1)))))
    return arr[i]
```
-/

/-- Clamped nearest-rank index used by `pct`:
`max(0, min(len(arr)-1, int(round(q*(len(arr)-1)))))`. -/
def pctIndex (n : ℕ) (q : ℚ) : ℤ :=
  max 0 (min ((n : ℤ) - 1) (pyRound (q * ((n : ℤ) - 1 : ℤ))))

/-- Quantile helper on sorted `arr`, safe for small `n`
(`pct` in src/sender/run.py). -/
def pct (arr : List ℚ) (q : ℚ) : ℚ :=
  if arr = [] then 0
  else arr.getD (pctIndex arr.length q).toNat 0

/-! ## Job selector (src/sender/run.py lines 64-85, cyclic branch)

```python
i = 0
def pick():
    nonlocal i
    j = JOBS[i % len(JOBS)]
    i += 1
    return j
```
-/

/-- One call of the cyclic picker closure: reads the rotation index `i`,
returns `JOBS[i % len(JOBS)]` and the incremented index. -/
def pickCycle (jobs : List String) (i : ℕ) : String × ℕ :=
  (jobs.getD (i % jobs.length) "", i + 1)

/-- `n` successive calls of the cyclic picker starting from rotation index 0:
the list of returned labels and the final index. -/
def runPicker (jobs : List String) : ℕ → List String × ℕ
  | 0 => ([], 0)
  | n + 1 =>
    ((runPicker jobs n).1 ++ [(pickCycle jobs (runPicker jobs n).2).1],
     (pickCycle jobs (runPicker jobs n).2).2)

/-! ## Request executor `one_call` (src/sender/run.py lines 87-112)

```python
def one_call(url, job, deadline, connect_timeout=2.0, floor=0.25):
    s = get_session()
    t0 = time.perf_counter()
    remaining = max(floor, deadline - t0)
    read_timeout = min(remaining, REQ_TIMEOUT)
    try:
        r = s.get(url, params={"job": job}, timeout=(connect_timeout, read_timeout))
        r.raise_for_status()
        elapsed = time.perf_counter() - t0
        try:
            jj = r.json().get("job") or job
        except Exception:
            jj = job
        if CAPTURE_UPSTREAM: return jj, elapsed, True, r.headers.get("X-Upstream")
        else:                return jj, elapsed, True
    except Exception:
        if CAPTURE_UPSTREAM: return job, time.perf_counter() - t0, False, None
        else:                return job, time.perf_counter() - t0, False
```

The HTTP interaction is abstracted into an `HttpResult`: any exception raised
by `s.get` or `raise_for_status` (transport error, timeout, non-success
status) is the `failure` constructor, carrying the elapsed time measured at
the catch site; a successful call carries its elapsed time, the parse of
`r.json().get("job")` (`none` = body not parsable JSON, `some none` = JSON
without a "job" field, `some (some s)` = "job" field with string value `s`)
and the optional `X-Upstream` header. -/

/-- Outcome of the underlying HTTP GET, as observed by `one_call`. -/
inductive HttpResult where
  | failure (elapsedAtFail : ℚ)
  | success (elapsed : ℚ) (bodyJob : Option (Option String)) (upstreamHdr : Option String)
deriving DecidableEq

/-- The tuple `one_call` returns: `(job, latency, ok, upstream)`; the fourth
component is only present when `CAPTURE_UPSTREAM` is set, modelled as an
`Option` that is `none` in that case. -/
structure Sample where
  job : String
  lat : ℚ
  ok : Bool
  upstream : Option String
deriving DecidableEq

/-- Read-timeout computation of `one_call`:
`remaining = max(floor, deadline - t0); read_timeout = min(remaining, REQ_TIMEOUT)`. -/
def read_timeout (floor deadline t0 reqTimeout : ℚ) : ℚ :=
  let remaining := max floor (deadline - t0)
  min remaining reqTimeout

/-- `one_call`'s classification of an HTTP outcome into a `Sample`.
`job` is the requested job label; `captureUpstream` is the
`CAPTURE_UPSTREAM` flag.  Python's `r.json().get("job") or job` falls back
to `job` when the parse fails, the field is missing, or its value is falsy
(the empty string). -/
def one_call (job : String) (res : HttpResult) (captureUpstream : Bool) : Sample :=
  match res with
  | .failure e => { job := job, lat := e, ok := false, upstream := none }
  | .success elapsed bodyJob upstreamHdr =>
    let jj := match bodyJob with
      | some (some s) => if s = "" then job else s
      | _ => job
    { job := jj, lat := elapsed, ok := true,
      upstream := if captureUpstream then upstreamHdr else none }

/-! ## Steady-stream runner `run_case` (src/sender/run.py lines 141-215)

The loop state (`in_flight`, `results`, `per_job`, `fails`, `next_launch`)
is made explicit; the in-flight set is tracked by its cardinality.  Each
loop iteration consumes a `Completion` describing the one future returned by
`_wait_one` — the completed call's result tuple — together with the
`time.perf_counter()` readings the iteration makes:

* `recordNow`: the reading in `if ok and time.perf_counter() <= t_end`;
* `refillNow`: the reading in `if time.perf_counter() < t_end` (refill gate);
* `paceNow`: the reading taken after the optional pacing sleep, used in
  `next_launch = max(next_launch + inter_arrival, time.perf_counter())`.

`_wait_one` on an empty set completes no future (`as_completed` yields
nothing), so an iteration with `inFlight = 0` leaves the state unchanged. -/

/-- Configuration of one steady-stream run: window end `t_end`
(a `perf_counter` timestamp), `CONCURRENCY`, and `TARGET_RPS`. -/
structure StreamConfig where
  t_end : ℚ
  concurrency : ℕ
  target_rps : ℚ
deriving DecidableEq

/-- `inter_arrival = (1.0 / TARGET_RPS) if TARGET_RPS > 0 else 0.0`. -/
def interArrival (cfg : StreamConfig) : ℚ :=
  if 0 < cfg.target_rps then 1 / cfg.target_rps else 0

/-- Mutable state of the `run_case` loop. -/
structure LoopState where
  inFlight : ℕ
  results : List ℚ
  perJob : List (String × ℚ)
  fails : ℕ
  nextLaunch : ℚ
deriving DecidableEq

/-- One completed request as processed by the loop body, with the clock
readings of that iteration. -/
structure Completion where
  job : String
  lat : ℚ
  ok : Bool
  recordNow : ℚ
  refillNow : ℚ
  paceNow : ℚ
deriving DecidableEq

/-- State after the seeding phase: `CONCURRENCY` requests submitted,
no results, no failures, `next_launch` initialised to the current clock. -/
def seedState (cfg : StreamConfig) (t0 : ℚ) : LoopState :=
  { inFlight := cfg.concurrency, results := [], perJob := [], fails := 0,
    nextLaunch := t0 }

/-- Result recording shared by the main loop and the drain loop:
```python
if ok and time.perf_counter() <= t_end:
    results.append(lat); per_job[job].append(lat)
elif not ok:
    fails += 1
```
-/
def recordResult (cfg : StreamConfig) (s : LoopState) (c : Completion) : LoopState :=
  if c.ok = true ∧ c.recordNow ≤ cfg.t_end then
    { s with results := s.results ++ [c.lat],
             perJob := s.perJob ++ [(c.job, c.lat)] }
  else if c.ok = false then
    { s with fails := s.fails + 1 }
  else s

/-- One iteration of the main (ADMITTING) loop: `_wait_one` removes one
future (none when the set is empty), the result is recorded, and if the
clock is still before `t_end` one replacement is submitted, pacing the
launch when `inter_arrival > 0`. -/
def mainStep (cfg : StreamConfig) (s : LoopState) (c : Completion) : LoopState :=
  if s.inFlight = 0 then s
  else
    let s1 := recordResult cfg { s with inFlight := s.inFlight - 1 } c
    if c.refillNow < cfg.t_end then
      if 0 < interArrival cfg then
        { s1 with inFlight := s1.inFlight + 1,
                  nextLaunch := max (s1.nextLaunch + interArrival cfg) c.paceNow }
      else
        { s1 with inFlight := s1.inFlight + 1 }
    else s1

/-- One iteration of the drain (DRAINING) loop: remove one future and record
its result; no refill. -/
def drainStep (cfg : StreamConfig) (s : LoopState) (c : Completion) : LoopState :=
  if s.inFlight = 0 then s
  else recordResult cfg { s with inFlight := s.inFlight - 1 } c

/-- An observed loop iteration: either a main-loop iteration (entered while
the clock was before `t_end`) or a drain-loop iteration. -/
inductive StreamEvent where
  | main (c : Completion)
  | drain (c : Completion)
deriving DecidableEq

/-- Apply one loop iteration. -/
def stepEvent (cfg : StreamConfig) (s : LoopState) : StreamEvent → LoopState
  | .main c => mainStep cfg s c
  | .drain c => drainStep cfg s c

/-- Run a whole sequence of loop iterations. -/
def runTrace (cfg : StreamConfig) (s : LoopState) (evs : List StreamEvent) : LoopState :=
  evs.foldl (stepEvent cfg) s

/-! ## Batched-burst runner `run_batched_case` (src/sender/run.py lines 220-260)

For each of `batches` batches, exactly `batch_requests` futures are submitted
(`futs = [pool.submit(one_call, ...) for _ in range(batch_requests)]`); each
future's `success` flag is counted once into `ok`/`fail` as `as_completed`
yields it.  The environment is abstracted by `succ b j` (whether request `j`
of batch `b` succeeds) and `times b` (the wall-clock elapsed time of
batch `b`). -/

/-- Aggregate output of `run_batched_case`: the per-batch lists, totals, the
summary statistics, and the per-batch report lines
(`batch index, time, ok, fail` from `zip(batch_times, per_batch_ok, per_batch_fail)`). -/
structure BatchOutput where
  batch_times : List ℚ
  per_batch_ok : List ℕ
  per_batch_fail : List ℕ
  total_ok : ℕ
  total_fail : ℕ
  total_sum : ℚ
  total_requests : ℕ
  eff_rps : ℚ
  reportLines : List (ℚ × ℕ × ℕ)

/-- Success count of one batch: requests `0..batch_requests-1` whose future
reports `success`. -/
def batchOk (batch_requests : ℕ) (succ : ℕ → Bool) : ℕ :=
  ((List.range batch_requests).map succ).count true

/-- Failure count of one batch. -/
def batchFail (batch_requests : ℕ) (succ : ℕ → Bool) : ℕ :=
  ((List.range batch_requests).map succ).count false

/-- `run_batched_case name url batches batch_requests concurrency`, with the
per-request outcomes and per-batch wall times supplied by the environment.
The worker limit `concurrency` bounds the pool width only; it does not enter
the counting or timing arithmetic. -/
def run_batched_case (batches batch_requests concurrency : ℕ)
    (succ : ℕ → ℕ → Bool) (times : ℕ → ℚ) : BatchOutput :=
  let idx := List.range batches
  let bt := idx.map times
  let oks := idx.map (fun b => batchOk batch_requests (succ b))
  let fails := idx.map (fun b => batchFail batch_requests (succ b))
  let total_sum := bt.sum
  let total_requests := batches * batch_requests
  { batch_times := bt
    per_batch_ok := oks
    per_batch_fail := fails
    total_ok := oks.sum
    total_fail := fails.sum
    total_sum := total_sum
    total_requests := total_requests
    eff_rps := if 0 < total_sum then (total_requests : ℚ) / total_sum else 0
    reportLines := bt.zip (oks.zip fails) }

/-! ## Backend `/calculate` handler (src/app/server.py)

```python
JOB_ITERS = { "A": 130_000_000, ..., "T": 80_000 }
JOB_FACTOR = float(os.getenv("JOB_FACTOR", "1"))
JOB_ITERS = {k: max(1, int(v * JOB_FACTOR)) for k, v in JOB_ITERS.items()}

def do_work(iters: int):
    hashlib.pbkdf2_hmac("sha256", secret, salt, iters)

@app.get("/calculate")
def calculate():
    job = request.args.get("job", "A").upper()
    iters = JOB_ITERS.get(job)
    t0 = time.perf_counter()
    do_work(iters)
    elapsed = time.perf_counter() - t0
    return jsonify({"ok": True, "job": job, "iters": iters, "elapsed_sec": ...})
```

`pbkdf2_hmac` with `iters = None` raises a `TypeError`, which Flask turns
into a 500 response: the handler does not return 200 for unknown labels. -/

/-- Python `int()` truncation toward zero on a rational. -/
def pyInt (x : ℚ) : ℤ :=
  if x < 0 then -⌊-x⌋ else ⌊x⌋

/-- Python `str.upper()`: per-character ASCII uppercasing. -/
def pyUpper (s : String) : String :=
  ⟨s.data.map Char.toUpper⟩

/-- The base `JOB_ITERS` table of src/app/server.py. -/
def JOB_ITERS_base : List (String × ℕ) :=
  [("A", 130000000), ("B", 40000000), ("C", 20000000), ("D", 10000000),
   ("E", 5000000), ("F", 2500000), ("G", 1250000), ("H", 1160000),
   ("I", 930000), ("J", 1500000), ("K", 595000), ("L", 476000),
   ("M", 520000), ("N", 305000), ("O", 244000), ("P", 195000),
   ("Q", 156000), ("R", 125000), ("S", 100000), ("T", 80000)]

/-- `JOB_ITERS` after scaling: `{k: max(1, int(v * JOB_FACTOR)) for k, v in ...}`. -/
def JOB_ITERS (factor : ℚ) : List (String × ℕ) :=
  JOB_ITERS_base.map (fun kv => (kv.1, max 1 (pyInt ((kv.2 : ℚ) * factor)).toNat))

/-- `do_work`: `pbkdf2_hmac` burns CPU when given an integer iteration count
and raises `TypeError` when given `None`. -/
def do_work (iters : Option ℕ) : Except String Unit :=
  match iters with
  | some _ => .ok ()
  | none => .error "TypeError"

/-- The JSON body of a 200 response from `/calculate` (the `elapsed_sec`
field, a wall-clock measurement, is not modelled). -/
structure CalcResponse where
  ok : Bool
  job : String
  iters : ℕ
deriving DecidableEq

/-- The `/calculate` handler: uppercases the `job` query parameter
(default `"A"`), looks it up in the scaled `JOB_ITERS`, runs `do_work` on
the lookup result, and on success returns the 200 JSON body; a raised
`TypeError` propagates (Flask answers 500). -/
def calculate (factor : ℚ) (jobParam : Option String) : Except String CalcResponse :=
  let job := pyUpper (jobParam.getD "A")
  let iters := (JOB_ITERS factor).lookup job
  match do_work iters with
  | .error e => .error e
  | .ok _ => .ok { ok := true, job := job, iters := iters.getD 0 }

/-! ## Properties of `pyRound` -/

theorem floor_le_pyRound (x : ℚ) : ⌊x⌋ ≤ pyRound x := by
  unfold pyRound; split_ifs <;> omega

theorem pyRound_le_floor_add_one (x : ℚ) : pyRound x ≤ ⌊x⌋ + 1 := by
  unfold pyRound; split_ifs <;> omega

theorem pyRound_intCast (n : ℤ) : pyRound (n : ℚ) = n := by
  unfold pyRound
  rw [Int.floor_intCast]
  norm_num

theorem pyRound_mono : Monotone pyRound := by
  intro x y hxy
  rcases lt_or_le ⌊x⌋ ⌊y⌋ with h | h
  · have h1 := pyRound_le_floor_add_one x
    have h2 := floor_le_pyRound y
    omega
  · have hfe : ⌊x⌋ = ⌊y⌋ := le_antisymm (Int.floor_le_floor hxy) h
    have hr : x - (⌊x⌋ : ℚ) ≤ y - (⌊y⌋ : ℚ) := by
      rw [← hfe]; linarith
    unfold pyRound
    rw [← hfe] at hr ⊢
    split_ifs <;> first | omega | linarith

/-! ## Properties of the clamped index `pctIndex` -/

theorem pctIndex_nonneg (n : ℕ) (q : ℚ) : 0 ≤ pctIndex n q :=
  le_max_left _ _

theorem pctIndex_le (n : ℕ) (q : ℚ) (hn : 1 ≤ n) : pctIndex n q ≤ (n : ℤ) - 1 := by
  unfold pctIndex
  have h : (0 : ℤ) ≤ (n : ℤ) - 1 := by
    have : (1 : ℤ) ≤ (n : ℤ) := by exact_mod_cast hn
    omega
  exact max_le h (min_le_left _ _)

theorem pctIndex_lt (n : ℕ) (q : ℚ) (hn : 1 ≤ n) : (pctIndex n q).toNat < n := by
  have h1 := pctIndex_nonneg n q
  have h2 := pctIndex_le n q hn
  omega

theorem pctIndex_mono (n : ℕ) {q₁ q₂ : ℚ} (h : q₁ ≤ q₂) :
    pctIndex n q₁ ≤ pctIndex n q₂ := by
  rcases Nat.eq_zero_or_pos n with rfl | hn
  · unfold pctIndex
    have hle₁ : min ((0 : ℕ) - 1 : ℤ) (pyRound (q₁ * (((0 : ℕ) - 1 : ℤ) : ℚ))) ≤ 0 := by
      refine le_trans (min_le_left _ _) ?_
      norm_num
    have hle₂ : min ((0 : ℕ) - 1 : ℤ) (pyRound (q₂ * (((0 : ℕ) - 1 : ℤ) : ℚ))) ≤ 0 := by
      refine le_trans (min_le_left _ _) ?_
      norm_num
    rw [max_eq_left hle₁, max_eq_left hle₂]
  · unfold pctIndex
    have hc : (0 : ℚ) ≤ (((n : ℤ) - 1 : ℤ) : ℚ) := by
      have h1 : (1 : ℚ) ≤ (n : ℚ) := by exact_mod_cast hn
      push_cast
      linarith
    have harg : q₁ * (((n : ℤ) - 1 : ℤ) : ℚ) ≤ q₂ * (((n : ℤ) - 1 : ℤ) : ℚ) :=
      mul_le_mul_of_nonneg_right h hc
    exact max_le_max le_rfl (min_le_min le_rfl (pyRound_mono harg))

theorem pctIndex_at_zero (n : ℕ) (hn : 1 ≤ n) : pctIndex n 0 = 0 := by
  unfold pctIndex
  rw [zero_mul]
  have h0 : pyRound (0 : ℚ) = 0 := by
    have := pyRound_intCast 0
    simpa using this
  rw [h0]
  have h : (0 : ℤ) ≤ (n : ℤ) - 1 := by
    have : (1 : ℤ) ≤ (n : ℤ) := by exact_mod_cast hn
    omega
  rw [min_eq_right h, max_self]

theorem pctIndex_at_one (n : ℕ) (hn : 1 ≤ n) : pctIndex n 1 = (n : ℤ) - 1 := by
  unfold pctIndex
  rw [one_mul, pyRound_intCast]
  have h : (0 : ℤ) ≤ (n : ℤ) - 1 := by
    have : (1 : ℤ) ≤ (n : ℤ) := by exact_mod_cast hn
    omega
  rw [min_self, max_eq_right h]

/-- **C2.** For every list `arr` and quantile `q ∈ [0,1]`, `pct arr q` returns
the element of `arr` at index `round(q × (len(arr)−1))` clamped into
`[0, len(arr)−1]` (the clamped index is `pctIndex arr.length q`, with
Python-`round` semantics), and returns the defined zero value `0.0` for the
empty list. -/
theorem pct_clamped_round_index (arr : List ℚ) (q : ℚ) (h0 : 0 ≤ q) (h1 : q ≤ 1) :
    pct ([] : List ℚ) q = 0 ∧
    ∀ _ : arr ≠ [],
      ∃ h : (pctIndex arr.length q).toNat < arr.length,
        pct arr q = arr.get ⟨(pctIndex arr.length q).toNat, h⟩ := by
  refine ⟨by simp [pct], fun hne => ?_⟩
  have hn : 1 ≤ arr.length := List.length_pos.mpr hne
  refine ⟨pctIndex_lt _ _ hn, ?_⟩
  simp only [pct, if_neg hne]
  exact List.getD_eq_get _ _ _

/-- Witness for `pct_clamped_round_index` at `arr = [1, 2, 3]`, `q = 1/2`. -/
theorem pct_clamped_round_index_witness :
    pct ([] : List ℚ) (1/2) = 0 ∧
    ∀ _ : ([1, 2, 3] : List ℚ) ≠ [],
      ∃ h : (pctIndex ([1, 2, 3] : List ℚ).length (1/2)).toNat < ([1, 2, 3] : List ℚ).length,
        pct [1, 2, 3] (1/2) =
          ([1, 2, 3] : List ℚ).get ⟨(pctIndex ([1, 2, 3] : List ℚ).length (1/2)).toNat, h⟩ :=
  pct_clamped_round_index [1, 2, 3] (1/2) (by norm_num) (by norm_num)

/-- **C3.** For every non-empty list `arr` sorted in non-decreasing order,
`q ↦ pct arr q` is monotone non-decreasing on `[0,1]`, `pct arr 0` is the
minimum element of `arr`, and `pct arr 1` is the maximum element of `arr`. -/
theorem pct_monotone_min_max (arr : List ℚ) (hne : arr ≠ [])
    (hs : arr.Sorted (· ≤ ·)) :
    (∀ q₁ q₂ : ℚ, 0 ≤ q₁ → q₁ ≤ q₂ → q₂ ≤ 1 → pct arr q₁ ≤ pct arr q₂) ∧
    (pct arr 0 ∈ arr ∧ ∀ x ∈ arr, pct arr 0 ≤ x) ∧
    (pct arr 1 ∈ arr ∧ ∀ x ∈ arr, x ≤ pct arr 1) := by
  have hn : 1 ≤ arr.length := List.length_pos.mpr hne
  have hget : ∀ q : ℚ,
      pct arr q = arr.get ⟨(pctIndex arr.length q).toNat, pctIndex_lt _ _ hn⟩ := by
    intro q
    simp only [pct, if_neg hne]
    exact List.getD_eq_get _ _ _
  refine ⟨?_, ?_, ?_⟩
  · intro q₁ q₂ _ h12 _
    rw [hget q₁, hget q₂]
    refine hs.rel_get_of_le ?_
    simp only [Fin.mk_le_mk]
    exact Int.toNat_le_toNat (pctIndex_mono _ h12)
  · rw [hget 0]
    refine ⟨arr.get_mem _ _, ?_⟩
    intro x hx
    obtain ⟨i, rfl⟩ := List.mem_iff_get.mp hx
    refine hs.rel_get_of_le ?_
    simp [Fin.le_def, pctIndex_at_zero _ hn]
  · rw [hget 1]
    refine ⟨arr.get_mem _ _, ?_⟩
    intro x hx
    obtain ⟨i, rfl⟩ := List.mem_iff_get.mp hx
    refine hs.rel_get_of_le ?_
    have hi := i.isLt
    simp only [Fin.le_def, pctIndex_at_one _ hn]
    omega

/-- Witness for `pct_monotone_min_max` at `arr = [1, 2, 3]`. -/
theorem pct_monotone_min_max_witness :
    (∀ q₁ q₂ : ℚ, 0 ≤ q₁ → q₁ ≤ q₂ → q₂ ≤ 1 →
      pct [1, 2, 3] q₁ ≤ pct [1, 2, 3] q₂) ∧
    (pct [1, 2, 3] 0 ∈ ([1, 2, 3] : List ℚ) ∧
      ∀ x ∈ ([1, 2, 3] : List ℚ), pct [1, 2, 3] 0 ≤ x) ∧
    (pct [1, 2, 3] 1 ∈ ([1, 2, 3] : List ℚ) ∧
      ∀ x ∈ ([1, 2, 3] : List ℚ), x ≤ pct [1, 2, 3] 1) :=
  pct_monotone_min_max [1, 2, 3] (by simp)
    (by norm_num [List.sorted_cons])

/-- **C5.** The read timeout used by the request executor equals
`min(max(floor, deadline − now), REQ_TIMEOUT)`; it is strictly positive
whenever the floor and the global request timeout are positive; and with a
deadline 0.1 s in the future, the default floor 0.25 and the default
`REQ_TIMEOUT = 120`, the floor dominates: the read timeout is ≥ 0.25 s. -/
theorem read_timeout_clamped (floor deadline t0 reqTimeout : ℚ)
    (hf : 0 < floor) (hT : 0 < reqTimeout) :
    read_timeout floor deadline t0 reqTimeout
      = min (max floor (deadline - t0)) reqTimeout ∧
    0 < read_timeout floor deadline t0 reqTimeout ∧
    ∀ now : ℚ, (1/4 : ℚ) ≤ read_timeout (1/4) (now + 1/10) now 120 := by
  refine ⟨rfl, ?_, ?_⟩
  · simp only [read_timeout]
    exact lt_min (lt_of_lt_of_le hf (le_max_left _ _)) hT
  · intro now
    simp only [read_timeout]
    have h : now + 1/10 - now = (1/10 : ℚ) := by ring
    rw [h, max_eq_left (by norm_num), min_eq_left (by norm_num)]

/-- Witness for `read_timeout_clamped` at `floor = 1/4`, `deadline = 1/10`,
`t0 = 0`, `reqTimeout = 120`. -/
theorem read_timeout_clamped_witness :
    read_timeout (1/4) (1/10) 0 120 = min (max (1/4) ((1/10 : ℚ) - 0)) 120 ∧
    0 < read_timeout (1/4) (1/10) 0 120 ∧
    ∀ now : ℚ, (1/4 : ℚ) ≤ read_timeout (1/4) (now + 1/10) now 120 :=
  read_timeout_clamped (1/4) (1/10) 0 120 (by norm_num) (by norm_num)

/-- **C6.** `one_call` classification: on any raised exception (transport
error, timeout, non-success status) the returned sample has `ok = false`,
the elapsed time measured at the failure point, and the originally requested
job label (and no upstream tag); on a successful call whose body is not
parsable JSON (`none`) or lacks a `job` field (`some none`), the sample has
`ok = true` and falls back to the originally requested job label. -/
theorem one_call_failure_and_fallback :
    (∀ (job : String) (e : ℚ) (cap : Bool),
      one_call job (.failure e) cap
        = { job := job, lat := e, ok := false, upstream := none }) ∧
    (∀ (job : String) (el : ℚ) (hdr : Option String) (cap : Bool),
      (one_call job (.success el none hdr) cap).ok = true ∧
      (one_call job (.success el none hdr) cap).job = job ∧
      (one_call job (.success el none hdr) cap).lat = el ∧
      (one_call job (.success el (some none) hdr) cap).ok = true ∧
      (one_call job (.success el (some none) hdr) cap).job = job ∧
      (one_call job (.success el (some none) hdr) cap).lat = el) := by
  refine ⟨fun job e cap => rfl, fun job el hdr cap => ?_⟩
  refine ⟨rfl, rfl, rfl, rfl, rfl, rfl⟩

/-! ## Cyclic picker lemmas -/

theorem runPicker_state (jobs : List String) (n : ℕ) :
    (runPicker jobs n).2 = n ∧ (runPicker jobs n).1.length = n := by
  induction n with
  | zero => simp [runPicker]
  | succ n ih => simp [runPicker, pickCycle, ih.1, ih.2]

theorem runPicker_getD (jobs : List String) (n k : ℕ) (hk : k < n) :
    (runPicker jobs n).1.getD k "" = jobs.getD (k % jobs.length) "" := by
  induction n with
  | zero => omega
  | succ n ih =>
    rcases Nat.lt_or_ge k n with h | h
    · rw [show runPicker jobs (n + 1)
          = ((runPicker jobs n).1 ++ [(pickCycle jobs (runPicker jobs n).2).1],
             (pickCycle jobs (runPicker jobs n).2).2) from rfl]
      rw [List.getD_append _ _ _ _ (by rw [(runPicker_state jobs n).2]; exact h)]
      exact ih h
    · have hkn : k = n := by omega
      subst hkn
      rw [show runPicker jobs (k + 1)
          = ((runPicker jobs k).1 ++ [(pickCycle jobs (runPicker jobs k).2).1],
             (pickCycle jobs (runPicker jobs k).2).2) from rfl]
      have hlen : (runPicker jobs k).1.length = k := (runPicker_state jobs k).2
      have hi : (runPicker jobs k).2 = k := (runPicker_state jobs k).1
      have hk' : k < ((runPicker jobs k).1 ++ [(pickCycle jobs (runPicker jobs k).2).1]).length := by
        simp [hlen]
      rw [List.getD_eq_getElem _ _ hk']
      rw [List.getElem_concat_length _ _ k hlen.symm, pickCycle, hi]

/-- **C9.** The cyclic job selector over a non-empty job list returns on its
`k`-th call (counting from 0) the job at index `k mod len(jobs)`, wrapping
round-robin; over `[A, B, C]` seven successive calls yield
`A, B, C, A, B, C, A`. -/
theorem cyclic_picker_round_robin (jobs : List String) (n k : ℕ)
    (hne : jobs ≠ []) (hk : k < n) :
    (runPicker jobs n).1.getD k "" = jobs.getD (k % jobs.length) "" ∧
    (runPicker ["A", "B", "C"] 7).1 = ["A", "B", "C", "A", "B", "C", "A"] := by
  refine ⟨runPicker_getD jobs n k hk, ?_⟩
  rfl

/-- Witness for `cyclic_picker_round_robin` at `jobs = [A, B, C]`, `n = 7`,
`k = 4`. -/
theorem cyclic_picker_round_robin_witness :
    (runPicker ["A", "B", "C"] 7).1.getD 4 ""
      = (["A", "B", "C"] : List String).getD (4 % (["A", "B", "C"] : List String).length) "" ∧
    (runPicker ["A", "B", "C"] 7).1 = ["A", "B", "C", "A", "B", "C", "A"] :=
  cyclic_picker_round_robin ["A", "B", "C"] 7 4 (by simp) (by norm_num)

/-! ## Steady-stream loop lemmas -/

theorem recordResult_inFlight (cfg : StreamConfig) (s : LoopState) (c : Completion) :
    (recordResult cfg s c).inFlight = s.inFlight := by
  unfold recordResult; split_ifs <;> rfl

theorem recordResult_nextLaunch (cfg : StreamConfig) (s : LoopState) (c : Completion) :
    (recordResult cfg s c).nextLaunch = s.nextLaunch := by
  unfold recordResult; split_ifs <;> rfl

theorem recordResult_results (cfg : StreamConfig) (s : LoopState) (c : Completion) :
    (recordResult cfg s c).results
      = s.results ++ (if c.ok = true ∧ c.recordNow ≤ cfg.t_end then [c.lat] else []) := by
  unfold recordResult
  split_ifs with h1 h2 <;> simp

theorem recordResult_perJob (cfg : StreamConfig) (s : LoopState) (c : Completion) :
    (recordResult cfg s c).perJob
      = s.perJob ++ (if c.ok = true ∧ c.recordNow ≤ cfg.t_end then [(c.job, c.lat)] else []) := by
  unfold recordResult
  split_ifs with h1 h2 <;> simp

theorem recordResult_fails (cfg : StreamConfig) (s : LoopState) (c : Completion) :
    (recordResult cfg s c).fails = s.fails + (if c.ok = true then 0 else 1) := by
  unfold recordResult
  cases hc : c.ok
  · simp [hc]
  · simp only [hc, true_and]
    split_ifs <;> simp_all

theorem mainStep_inFlight (cfg : StreamConfig) (s : LoopState) (c : Completion)
    (h : ¬s.inFlight = 0) :
    (mainStep cfg s c).inFlight
      = (s.inFlight - 1) + (if c.refillNow < cfg.t_end then 1 else 0) := by
  unfold mainStep
  rw [if_neg h]
  split_ifs with h1 h2 <;> simp [recordResult_inFlight]

theorem mainStep_results (cfg : StreamConfig) (s : LoopState) (c : Completion)
    (h : ¬s.inFlight = 0) :
    (mainStep cfg s c).results
      = (recordResult cfg { s with inFlight := s.inFlight - 1 } c).results := by
  unfold mainStep
  rw [if_neg h]
  split_ifs <;> rfl

theorem mainStep_perJob (cfg : StreamConfig) (s : LoopState) (c : Completion)
    (h : ¬s.inFlight = 0) :
    (mainStep cfg s c).perJob
      = (recordResult cfg { s with inFlight := s.inFlight - 1 } c).perJob := by
  unfold mainStep
  rw [if_neg h]
  split_ifs <;> rfl

theorem mainStep_fails (cfg : StreamConfig) (s : LoopState) (c : Completion)
    (h : ¬s.inFlight = 0) :
    (mainStep cfg s c).fails
      = (recordResult cfg { s with inFlight := s.inFlight - 1 } c).fails := by
  unfold mainStep
  rw [if_neg h]
  split_ifs <;> rfl

theorem mainStep_nextLaunch_pacing (cfg : StreamConfig) (s : LoopState) (c : Completion)
    (h0 : ¬s.inFlight = 0) (hre : c.refillNow < cfg.t_end)
    (hia : 0 < interArrival cfg) :
    (mainStep cfg s c).nextLaunch = max (s.nextLaunch + interArrival cfg) c.paceNow := by
  unfold mainStep
  rw [if_neg h0, if_pos hre, if_pos hia]
  simp [recordResult_nextLaunch]

theorem stepEvent_nextLaunch_ge (cfg : StreamConfig) (s : LoopState) (e : StreamEvent) :
    s.nextLaunch ≤ (stepEvent cfg s e).nextLaunch := by
  cases e with
  | main c =>
    show s.nextLaunch ≤ (mainStep cfg s c).nextLaunch
    unfold mainStep
    split_ifs with h0 h1 h2
    · exact le_refl _
    · simp only [recordResult_nextLaunch]
      exact le_trans (by linarith) (le_max_left _ _)
    · simp [recordResult_nextLaunch]
    · simp [recordResult_nextLaunch]
  | drain c =>
    show s.nextLaunch ≤ (drainStep cfg s c).nextLaunch
    unfold drainStep
    split_ifs
    · exact le_refl _
    · simp [recordResult_nextLaunch]

theorem runTrace_nextLaunch_ge (cfg : StreamConfig) (s : LoopState)
    (evs : List StreamEvent) :
    s.nextLaunch ≤ (runTrace cfg s evs).nextLaunch := by
  induction evs generalizing s with
  | nil => exact le_refl _
  | cons e evs ih =>
    exact le_trans (stepEvent_nextLaunch_ge cfg s e) (ih (stepEvent cfg s e))

theorem stepEvent_inFlight_le (cfg : StreamConfig) (s : LoopState) (e : StreamEvent) :
    (stepEvent cfg s e).inFlight ≤ s.inFlight := by
  cases e with
  | main c =>
    show (mainStep cfg s c).inFlight ≤ s.inFlight
    unfold mainStep
    split_ifs <;> simp [recordResult_inFlight] <;> omega
  | drain c =>
    show (drainStep cfg s c).inFlight ≤ s.inFlight
    unfold drainStep
    split_ifs <;> simp [recordResult_inFlight]

theorem runTrace_inFlight_le (cfg : StreamConfig) (s : LoopState)
    (evs : List StreamEvent) :
    (runTrace cfg s evs).inFlight ≤ s.inFlight := by
  induction evs generalizing s with
  | nil => exact le_refl _
  | cons e evs ih =>
    exact le_trans (ih (stepEvent cfg s e)) (stepEvent_inFlight_le cfg s e)

/-- **C1 is refuted by the code**: the `elif not ok: fails += 1` branch is not
gated by `time.perf_counter() <= t_end`, so a failed request completing
after the window end is still counted.  Concretely: window end 10, one
in-flight request failing with a completion-time reading of 11 > 10, and the
drain loop still increments the failure counter from 0 to 1. -/
theorem late_failure_still_counted :
    (drainStep { t_end := 10, concurrency := 1, target_rps := 0 }
        { inFlight := 1, results := [], perJob := [], fails := 0, nextLaunch := 0 }
        { job := "A", lat := 5, ok := false, recordNow := 11, refillNow := 11,
          paceNow := 11 }).fails = 1 ∧
    (10 : ℚ) < 11 := by
  constructor
  · norm_num [drainStep, recordResult]
  · norm_num

/-- **C1 (amended).** In both the ADMITTING and the DRAINING phase, a
*successful* completion is recorded into the results and per-job collections
only if its completion time is at or before the window end `t_end`; a
*failed* completion always increments the failure counter, regardless of its
completion time. -/
theorem record_gating (cfg : StreamConfig) (s : LoopState) (c : Completion)
    (hpos : 0 < s.inFlight) :
    (mainStep cfg s c).results
      = s.results ++ (if c.ok = true ∧ c.recordNow ≤ cfg.t_end then [c.lat] else []) ∧
    (mainStep cfg s c).perJob
      = s.perJob ++ (if c.ok = true ∧ c.recordNow ≤ cfg.t_end then [(c.job, c.lat)] else []) ∧
    (mainStep cfg s c).fails = s.fails + (if c.ok = true then 0 else 1) ∧
    (drainStep cfg s c).results
      = s.results ++ (if c.ok = true ∧ c.recordNow ≤ cfg.t_end then [c.lat] else []) ∧
    (drainStep cfg s c).perJob
      = s.perJob ++ (if c.ok = true ∧ c.recordNow ≤ cfg.t_end then [(c.job, c.lat)] else []) ∧
    (drainStep cfg s c).fails = s.fails + (if c.ok = true then 0 else 1) := by
  have h0 : ¬s.inFlight = 0 := by omega
  refine ⟨?_, ?_, ?_, ?_, ?_, ?_⟩
  · rw [mainStep_results cfg s c h0, recordResult_results]
  · rw [mainStep_perJob cfg s c h0, recordResult_perJob]
  · rw [mainStep_fails cfg s c h0, recordResult_fails]
  · unfold drainStep; rw [if_neg h0, recordResult_results]
  · unfold drainStep; rw [if_neg h0, recordResult_perJob]
  · unfold drainStep; rw [if_neg h0, recordResult_fails]

/-- Witness for `record_gating` at a concrete configuration and a late
failed completion. -/
theorem record_gating_witness :
    (mainStep { t_end := 10, concurrency := 1, target_rps := 0 }
        { inFlight := 1, results := [], perJob := [], fails := 0, nextLaunch := 0 }
        { job := "A", lat := 5, ok := false, recordNow := 11, refillNow := 11,
          paceNow := 11 }).results
      = [] ++ (if ((false = true) ∧ (11 : ℚ) ≤ 10) then [(5 : ℚ)] else []) ∧
    (mainStep { t_end := 10, concurrency := 1, target_rps := 0 }
        { inFlight := 1, results := [], perJob := [], fails := 0, nextLaunch := 0 }
        { job := "A", lat := 5, ok := false, recordNow := 11, refillNow := 11,
          paceNow := 11 }).perJob
      = [] ++ (if ((false = true) ∧ (11 : ℚ) ≤ 10) then [("A", (5 : ℚ))] else []) ∧
    (mainStep { t_end := 10, concurrency := 1, target_rps := 0 }
        { inFlight := 1, results := [], perJob := [], fails := 0, nextLaunch := 0 }
        { job := "A", lat := 5, ok := false, recordNow := 11, refillNow := 11,
          paceNow := 11 }).fails = 0 + (if (false = true) then 0 else 1) ∧
    (drainStep { t_end := 10, concurrency := 1, target_rps := 0 }
        { inFlight := 1, results := [], perJob := [], fails := 0, nextLaunch := 0 }
        { job := "A", lat := 5, ok := false, recordNow := 11, refillNow := 11,
          paceNow := 11 }).results
      = [] ++ (if ((false = true) ∧ (11 : ℚ) ≤ 10) then [(5 : ℚ)] else []) ∧
    (drainStep { t_end := 10, concurrency := 1, target_rps := 0 }
        { inFlight := 1, results := [], perJob := [], fails := 0, nextLaunch := 0 }
        { job := "A", lat := 5, ok := false, recordNow := 11, refillNow := 11,
          paceNow := 11 }).perJob
      = [] ++ (if ((false = true) ∧ (11 : ℚ) ≤ 10) then [("A", (5 : ℚ))] else []) ∧
    (drainStep { t_end := 10, concurrency := 1, target_rps := 0 }
        { inFlight := 1, results := [], perJob := [], fails := 0, nextLaunch := 0 }
        { job := "A", lat := 5, ok := false, recordNow := 11, refillNow := 11,
          paceNow := 11 }).fails = 0 + (if (false = true) then 0 else 1) :=
  record_gating { t_end := 10, concurrency := 1, target_rps := 0 }
    { inFlight := 1, results := [], perJob := [], fails := 0, nextLaunch := 0 }
    { job := "A", lat := 5, ok := false, recordNow := 11, refillNow := 11,
      paceNow := 11 } (by norm_num)

/-- **C4.** The in-flight window is an invariant of the steady-state run:
seeding submits exactly `CONCURRENCY` requests, each main-loop iteration
removes exactly one completed request and admits at most one replacement
(one exactly when the refill-gate clock reading is before `t_end`), each
drain iteration removes exactly one, and along every trace from the seeded
state the number of in-flight requests never exceeds `CONCURRENCY`. -/
theorem concurrency_window_invariant (cfg : StreamConfig) (t0 : ℚ)
    (evs : List StreamEvent) (s : LoopState) (c : Completion)
    (hpos : 0 < s.inFlight) :
    (seedState cfg t0).inFlight = cfg.concurrency ∧
    (mainStep cfg s c).inFlight
      = (s.inFlight - 1) + (if c.refillNow < cfg.t_end then 1 else 0) ∧
    (drainStep cfg s c).inFlight = s.inFlight - 1 ∧
    (runTrace cfg (seedState cfg t0) evs).inFlight ≤ cfg.concurrency := by
  have h0 : ¬s.inFlight = 0 := by omega
  refine ⟨rfl, mainStep_inFlight cfg s c h0, ?_, ?_⟩
  · unfold drainStep
    rw [if_neg h0, recordResult_inFlight]
  · have h := runTrace_inFlight_le cfg (seedState cfg t0) evs
    simpa [seedState] using h

/-- Witness for `concurrency_window_invariant` at a concrete run. -/
theorem concurrency_window_invariant_witness :
    (seedState { t_end := 10, concurrency := 2, target_rps := 0 } 0).inFlight = 2 ∧
    (mainStep { t_end := 10, concurrency := 2, target_rps := 0 }
        { inFlight := 2, results := [], perJob := [], fails := 0, nextLaunch := 0 }
        { job := "A", lat := 1, ok := true, recordNow := 1, refillNow := 1,
          paceNow := 1 }).inFlight
      = (2 - 1) + (if (1 : ℚ) < 10 then 1 else 0) ∧
    (drainStep { t_end := 10, concurrency := 2, target_rps := 0 }
        { inFlight := 2, results := [], perJob := [], fails := 0, nextLaunch := 0 }
        { job := "A", lat := 1, ok := true, recordNow := 1, refillNow := 1,
          paceNow := 1 }).inFlight = 2 - 1 ∧
    (runTrace { t_end := 10, concurrency := 2, target_rps := 0 }
        (seedState { t_end := 10, concurrency := 2, target_rps := 0 } 0)
        [.main { job := "A", lat := 1, ok := true, recordNow := 1, refillNow := 1,
                 paceNow := 1 },
         .drain { job := "B", lat := 1, ok := true, recordNow := 11, refillNow := 11,
                  paceNow := 11 }]).inFlight ≤ 2 :=
  concurrency_window_invariant { t_end := 10, concurrency := 2, target_rps := 0 } 0
    [.main { job := "A", lat := 1, ok := true, recordNow := 1, refillNow := 1,
             paceNow := 1 },
     .drain { job := "B", lat := 1, ok := true, recordNow := 11, refillNow := 11,
              paceNow := 11 }]
    { inFlight := 2, results := [], perJob := [], fails := 0, nextLaunch := 0 }
    { job := "A", lat := 1, ok := true, recordNow := 1, refillNow := 1, paceNow := 1 }
    (by norm_num)

/-- **C7.** With open-loop pacing configured (`TARGET_RPS > 0`), a paced
admission updates the next-launch timestamp to
`max(next_launch + 1/rate, now)`, so it grows by at least `1/rate` per
admission; and along every trace of loop iterations the next-launch
timestamp never decreases. -/
theorem pacing_next_launch_monotone (cfg : StreamConfig) (s sAny : LoopState)
    (c : Completion) (evs : List StreamEvent)
    (hrate : 0 < cfg.target_rps) (hpos : 0 < s.inFlight)
    (hre : c.refillNow < cfg.t_end) :
    (mainStep cfg s c).nextLaunch
      = max (s.nextLaunch + 1 / cfg.target_rps) c.paceNow ∧
    s.nextLaunch + 1 / cfg.target_rps ≤ (mainStep cfg s c).nextLaunch ∧
    sAny.nextLaunch ≤ (runTrace cfg sAny evs).nextLaunch := by
  have hival : interArrival cfg = 1 / cfg.target_rps := by
    unfold interArrival
    rw [if_pos hrate]
  have hia : 0 < interArrival cfg := by
    rw [hival]
    positivity
  have h0 : ¬s.inFlight = 0 := by omega
  have h1 := mainStep_nextLaunch_pacing cfg s c h0 hre hia
  rw [hival] at h1
  exact ⟨h1, h1 ▸ le_max_left _ _, runTrace_nextLaunch_ge cfg sAny evs⟩

/-- Witness for `pacing_next_launch_monotone` at rate 4 (inter-arrival 1/4). -/
theorem pacing_next_launch_monotone_witness :
    (mainStep { t_end := 10, concurrency := 1, target_rps := 4 }
        { inFlight := 1, results := [], perJob := [], fails := 0, nextLaunch := 3 }
        { job := "A", lat := 1, ok := true, recordNow := 2, refillNow := 2,
          paceNow := 2 }).nextLaunch
      = max ((3 : ℚ) + 1 / 4) 2 ∧
    (3 : ℚ) + 1 / 4
      ≤ (mainStep { t_end := 10, concurrency := 1, target_rps := 4 }
          { inFlight := 1, results := [], perJob := [], fails := 0, nextLaunch := 3 }
          { job := "A", lat := 1, ok := true, recordNow := 2, refillNow := 2,
            paceNow := 2 }).nextLaunch ∧
    ({ inFlight := 0, results := [], perJob := [], fails := 0,
       nextLaunch := 7 } : LoopState).nextLaunch
      ≤ (runTrace { t_end := 10, concurrency := 1, target_rps := 4 }
          { inFlight := 0, results := [], perJob := [], fails := 0, nextLaunch := 7 }
          [.drain { job := "A", lat := 1, ok := true, recordNow := 2, refillNow := 2,
                    paceNow := 2 }]).nextLaunch :=
  pacing_next_launch_monotone { t_end := 10, concurrency := 1, target_rps := 4 }
    { inFlight := 1, results := [], perJob := [], fails := 0, nextLaunch := 3 }
    { inFlight := 0, results := [], perJob := [], fails := 0, nextLaunch := 7 }
    { job := "A", lat := 1, ok := true, recordNow := 2, refillNow := 2, paceNow := 2 }
    [.drain { job := "A", lat := 1, ok := true, recordNow := 2, refillNow := 2,
              paceNow := 2 }]
    (by norm_num) (by norm_num) (by norm_num)

/-! ## Batched-burst lemmas -/

theorem count_true_add_count_false (l : List Bool) :
    l.count true + l.count false = l.length := by
  induction l with
  | nil => rfl
  | cons b l ih =>
    cases b <;> simp [List.count_cons] <;> omega

theorem batchOk_add_batchFail (batch_requests : ℕ) (succ : ℕ → Bool) :
    batchOk batch_requests succ + batchFail batch_requests succ = batch_requests := by
  unfold batchOk batchFail
  rw [count_true_add_count_false]
  simp

/-- **C8.** For `batches = N ≥ 1`, `batch_requests = K ≥ 1`,
`run_batched_case` reports exactly `N` per-batch lines and `N` batch times;
in every batch each of the `K` submitted requests is counted exactly once as
a success or a failure, so `ok + fail = K`; the total request count is
`N × K`; and the effective aggregate throughput is `N × K` divided by the
summed batch wall-clock time, or `0` when that sum is not positive. -/
theorem batched_case_counts (N K C : ℕ) (succ : ℕ → ℕ → Bool) (times : ℕ → ℚ)
    (hN : 1 ≤ N) (hK : 1 ≤ K) (hC : 1 ≤ C) :
    (run_batched_case N K C succ times).reportLines.length = N ∧
    (run_batched_case N K C succ times).batch_times.length = N ∧
    (∀ b, b < N →
      (run_batched_case N K C succ times).per_batch_ok.getD b 0
        + (run_batched_case N K C succ times).per_batch_fail.getD b 0 = K) ∧
    (run_batched_case N K C succ times).total_requests = N * K ∧
    (0 < (run_batched_case N K C succ times).total_sum →
      (run_batched_case N K C succ times).eff_rps
        = ((N * K : ℕ) : ℚ) / (run_batched_case N K C succ times).total_sum) ∧
    ((run_batched_case N K C succ times).total_sum ≤ 0 →
      (run_batched_case N K C succ times).eff_rps = 0) := by
  refine ⟨?_, ?_, ?_, rfl, ?_, ?_⟩
  · simp [run_batched_case]
  · simp [run_batched_case]
  · intro b hb
    have hok : (run_batched_case N K C succ times).per_batch_ok.getD b 0
        = batchOk K (succ b) := by
      simp only [run_batched_case]
      rw [List.getD_eq_getElem _ _ (by simpa using hb)]
      simp
    have hfail : (run_batched_case N K C succ times).per_batch_fail.getD b 0
        = batchFail K (succ b) := by
      simp only [run_batched_case]
      rw [List.getD_eq_getElem _ _ (by simpa using hb)]
      simp
    rw [hok, hfail]
    exact batchOk_add_batchFail K (succ b)
  · intro hpos
    simp only [run_batched_case] at hpos ⊢
    rw [if_pos hpos]
  · intro hle
    simp only [run_batched_case] at hle ⊢
    rw [if_neg (by linarith)]

/-- Witness for `batched_case_counts` at `N = 2`, `K = 3`, alternating
outcomes, unit batch times. -/
theorem batched_case_counts_witness :
    (run_batched_case 2 3 10 (fun _ j => decide (j % 2 = 0)) (fun _ => 1)).reportLines.length = 2 ∧
    (run_batched_case 2 3 10 (fun _ j => decide (j % 2 = 0)) (fun _ => 1)).batch_times.length = 2 ∧
    (∀ b, b < 2 →
      (run_batched_case 2 3 10 (fun _ j => decide (j % 2 = 0)) (fun _ => 1)).per_batch_ok.getD b 0
        + (run_batched_case 2 3 10 (fun _ j => decide (j % 2 = 0)) (fun _ => 1)).per_batch_fail.getD b 0
        = 3) ∧
    (run_batched_case 2 3 10 (fun _ j => decide (j % 2 = 0)) (fun _ => 1)).total_requests = 2 * 3 ∧
    (0 < (run_batched_case 2 3 10 (fun _ j => decide (j % 2 = 0)) (fun _ => 1)).total_sum →
      (run_batched_case 2 3 10 (fun _ j => decide (j % 2 = 0)) (fun _ => 1)).eff_rps
        = ((2 * 3 : ℕ) : ℚ)
            / (run_batched_case 2 3 10 (fun _ j => decide (j % 2 = 0)) (fun _ => 1)).total_sum) ∧
    ((run_batched_case 2 3 10 (fun _ j => decide (j % 2 = 0)) (fun _ => 1)).total_sum ≤ 0 →
      (run_batched_case 2 3 10 (fun _ j => decide (j % 2 = 0)) (fun _ => 1)).eff_rps = 0) :=
  batched_case_counts 2 3 10 (fun _ j => decide (j % 2 = 0)) (fun _ => 1)
    (by norm_num) (by norm_num) (by norm_num)

/-! ## Backend handler lemmas -/

theorem lookup_eq_none_iff_not_mem (l : List (String × ℕ)) (k : String) :
    l.lookup k = none ↔ k ∉ l.map Prod.fst := by
  induction l with
  | nil => simp [List.lookup]
  | cons hd tl ih =>
    obtain ⟨a, b⟩ := hd
    by_cases hk : k = a
    · subst hk
      simp [List.lookup]
    · have hbeq : (k == a) = false := beq_false_of_ne hk
      simp [List.lookup, hbeq, hk, ih]

/-- **C10.** The `/calculate` handler returns a 200 JSON body exactly when
the uppercased `job` query parameter (defaulting to `"A"` when absent) is a
key of the scaled `JOB_ITERS` table; for any other value the lookup yields
`None`, `do_work` is called with `None` iterations and raises (a 500, not a
200): the error branch is reachable, e.g. at `job = "Z"`, so the backend is
not always-200. -/
theorem calculate_requires_known_job (factor : ℚ) (p : Option String) :
    ((∃ r, calculate factor p = .ok r)
      ↔ pyUpper (p.getD "A") ∈ (JOB_ITERS factor).map Prod.fst) ∧
    ((JOB_ITERS factor).lookup (pyUpper (p.getD "A")) = none →
      calculate factor p = .error "TypeError") ∧
    calculate 1 (some "Z") = .error "TypeError" ∧
    (∃ r, calculate 1 none = .ok r ∧ r.job = "A" ∧ r.ok = true) := by
  have herr : (JOB_ITERS factor).lookup (pyUpper (p.getD "A")) = none →
      calculate factor p = .error "TypeError" := by
    intro h
    simp only [calculate, h, do_work]
  refine ⟨?_, herr, rfl, ⟨_, rfl, rfl, rfl⟩⟩
  constructor
  · rintro ⟨r, hr⟩
    by_contra hmem
    have h := (lookup_eq_none_iff_not_mem _ _).mpr hmem
    rw [herr h] at hr
    exact Except.noConfusion hr
  · intro hmem
    rcases ho : (JOB_ITERS factor).lookup (pyUpper (p.getD "A")) with _ | v
    · exact absurd ((lookup_eq_none_iff_not_mem _ _).mp ho) (fun h => h hmem)
    · exact ⟨_, by simp only [calculate, ho, do_work]; rfl⟩

end LoadBalancer



